import Mathlib

/-!
Verification development for the LiDAR point-cloud visualizer
(`main.py` / `settings.py`): a shallow embedding of the data-preparation
pipeline (classification filter, budgeted sampler, raster color resolver,
color source selector, coordinate normalizer, dataset assembler) and
theorems about it.

Modelling conventions:
* Machine floats are modelled by `ℚ` (exact arithmetic); "within floating
  tolerance" statements become exact equalities.
* numpy arrays are Lean lists; fancy indexing `a[indices]` is
  `indices.map (fun i => a.getD i 0)`.
* Python exceptions are modelled by `Option` results (`none` = the call
  raises); console printing is dropped, except where a print expression
  itself can raise (the per-run summary of `sample_rgb_from_orthophoto`
  divides by `len(x_coords)`, so the empty-input run raises
  `ZeroDivisionError` and is modelled as `none`).
* The rasterio `rowcol` transform inversion is external to the repository;
  it is an abstract field of `OrthoData` returning `Option (ℤ × ℤ)`
  (`none` models a per-point exception caught by the `try` block).
-/

namespace PointCloud

/-- A color triple `(r, g, b)`, the content of the `'rgb(r,g,b)'` strings the
code builds (the string rendering is injective on triples, so we keep the
triple). -/
abbrev Color := ℤ × ℤ × ℤ

/-- The fixed fallback color `'rgb(128,128,128)'`. -/
def sentinelGray : Color := (128, 128, 128)

/-- The orthophoto dictionary built by `load_orthophoto`: three pixel bands
indexed by `(row, col)`, dimensions, and the (abstract) world-to-pixel
conversion `rowcol transform x y`; `none` models a raised exception. -/
structure OrthoData where
  red : ℤ → ℤ → ℤ
  green : ℤ → ℤ → ℤ
  blue : ℤ → ℤ → ℤ
  width : ℕ
  height : ℕ
  rowcol : ℚ → ℚ → Option (ℤ × ℤ)

/-- The laspy point record: coordinate arrays plus optional attributes
(`hasattr` checks become `Option`); `num_points` is `len(las.points)`. -/
structure Las where
  x : List ℚ
  y : List ℚ
  z : List ℚ
  classification : Option (List ℕ)
  red : Option (List ℕ)
  green : Option (List ℕ)
  blue : Option (List ℕ)
  intensity : Option (List ℕ)
  num_points : ℕ

/-- The module-level configuration constants of `settings.py` that the
pipeline reads. -/
structure Settings where
  NORMALIZE_HEIGHT : Bool
  GROUND_CLASS : ℕ
  CENTER_COORDINATES : Bool
  RGB_MAX_VALUE : ℚ
  HEIGHT_COLORMAP : String

/-- `np.mean` over a list of rationals. -/
def mean (l : List ℚ) : ℚ := l.sum / (l.length : ℚ)

/-- `np.min` over a list of rationals (callers guard against the empty
list, where numpy would raise). -/
def listMin : List ℚ → ℚ
  | [] => 0
  | a :: t => t.foldl min a

/-- Python `int()` applied to a rational: truncation toward zero. -/
def intTrunc (q : ℚ) : ℤ := if q < 0 then -Int.floor (-q) else Int.floor q

/-- The body of the per-point loop of `sample_rgb_from_orthophoto`:
convert world coordinates to a pixel cell, bounds-check, read the bands,
treat an exact `(0,0,0)` pixel as no-data; any per-point exception
(modelled by `rowcol = none`) degrades the point to sentinel gray. -/
def resolve_point (od : OrthoData) (x y : ℚ) : Color :=
  match od.rowcol x y with
  | none => sentinelGray
  | some (row, col) =>
    if 0 ≤ row ∧ row < (od.height : ℤ) ∧ 0 ≤ col ∧ col < (od.width : ℤ) then
      let r := od.red row col
      let g := od.green row col
      let b := od.blue row col
      if r = 0 ∧ g = 0 ∧ b = 0 then sentinelGray else (r, g, b)
    else sentinelGray

/-- The full list of colors the loop of `sample_rgb_from_orthophoto`
accumulates (Python `zip` truncates to the shorter list). -/
def raster_colors (od : OrthoData) (xs ys : List ℚ) : List Color :=
  (xs.zip ys).map fun p => resolve_point od p.1 p.2

/-- `sample_rgb_from_orthophoto(x_coords, y_coords, ortho_data)`.  The loop
itself never aborts, but the closing summary computes
`valid_colors / len(x_coords)`, so an empty input raises
`ZeroDivisionError` before the list is returned: that run is `none`. -/
def sample_rgb_from_orthophoto (xs ys : List ℚ) (od : OrthoData) :
    Option (List Color) :=
  if xs.length = 0 then none else some (raster_colors od xs ys)

/-- `filter_points_by_classification(las, classes_to_keep)`: identity index
set when classification is absent, else `np.where(np.isin(...))[0]`. -/
def filter_points_by_classification (las : Las) (classes_to_keep : List ℕ) :
    List ℕ :=
  match las.classification with
  | none => List.range las.num_points
  | some cls =>
      (List.range cls.length).filter fun i => cls.getD i 0 ∈ classes_to_keep

/-- `sample_points(total_indices, max_points)`.  The outcome of
`np.random.choice(total_indices, max_points, replace=False)` is modelled by
an oracle `pick`: the list of array positions the RNG chose (the contract
of `replace=False` — `m` distinct in-range positions — is a hypothesis of
the theorems). -/
def sample_points (total_indices : List ℕ) (max_points : Option ℕ)
    (pick : List ℕ) : List ℕ :=
  match max_points with
  | none => total_indices
  | some m =>
    if total_indices.length ≤ m then total_indices
    else pick.map fun j => total_indices.getD j 0

/-- `las.x[indices]`, the original (pre-centering) selected x coordinates. -/
def x_original (las : Las) (indices : List ℕ) : List ℚ :=
  indices.map fun i => las.x.getD i 0

/-- `las.y[indices]`, the original (pre-centering) selected y coordinates. -/
def y_original (las : Las) (indices : List ℕ) : List ℚ :=
  indices.map fun i => las.y.getD i 0

/-- The z values of all ground points of the whole cloud:
`las.z[las.classification == GROUND_CLASS]` (note: the mask ranges over the
full arrays, not over `indices`). -/
def ground_zs (las : Las) (cls : List ℕ) (gc : ℕ) : List ℚ :=
  (las.z.zip cls).filterMap fun p => if p.2 = gc then some p.1 else none

/-- The `ground_elevation` variable of `prepare_point_cloud_data`: 0 unless
normalization is on, classification exists and some ground point exists, in
which case it is the minimum z over ALL ground points of the cloud. -/
def ground_elevation (st : Settings) (las : Las) : ℚ :=
  match st.NORMALIZE_HEIGHT, las.classification with
  | true, some cls =>
      if ground_zs las cls st.GROUND_CLASS = [] then 0
      else listMin (ground_zs las cls st.GROUND_CLASS)
  | _, _ => 0

/-- The z array after the height-normalization step: `las.z[indices]`,
minus `ground_elevation` when the normalization branch fires. -/
def normalized_z (st : Settings) (las : Las) (indices : List ℕ) : List ℚ :=
  let z0 := indices.map fun i => las.z.getD i 0
  match st.NORMALIZE_HEIGHT, las.classification with
  | true, some cls =>
      if ground_zs las cls st.GROUND_CLASS = [] then z0
      else z0.map fun zi => zi - listMin (ground_zs las cls st.GROUND_CLASS)
  | _, _ => z0

/-- The embedded-RGB branch:
`(las.red[indices] / RGB_MAX_VALUE * 255).astype(int)` per channel. -/
def embedded_rgb_colors (st : Settings) (las : Las) (indices : List ℕ) :
    List Color :=
  let rs := las.red.getD []
  let gs := las.green.getD []
  let bs := las.blue.getD []
  indices.map fun i =>
    (intTrunc ((rs.getD i 0 : ℚ) / st.RGB_MAX_VALUE * 255),
     intTrunc ((gs.getD i 0 : ℚ) / st.RGB_MAX_VALUE * 255),
     intTrunc ((bs.getD i 0 : ℚ) / st.RGB_MAX_VALUE * 255))

/-- The color variables (`colors`, `color_array`, `colorscale`,
`color_source`) after the priority chain of `prepare_point_cloud_data`. -/
structure ColorChoice where
  colors : Option (List Color)
  color_array : Option (List ℚ)
  colorscale : Option String
  color_source : String

/-- The color-source priority chain: orthophoto (may raise, hence
`Option`), else embedded LAS RGB, else height colormap.  (An `OrthoData`
value exists only if rasterio is available, so `RASTERIO_AVAILABLE` is
subsumed by `ortho_data ≠ none`.) -/
def choose_colors (st : Settings) (las : Las) (indices : List ℕ)
    (ortho_data : Option OrthoData) : Option ColorChoice :=
  match ortho_data with
  | some od =>
    match sample_rgb_from_orthophoto (x_original las indices)
        (y_original las indices) od with
    | none => none
    | some cs => some ⟨some cs, none, none, "ortofotografía"⟩
  | none =>
    if las.red.isSome && las.green.isSome && las.blue.isSome then
      some ⟨some (embedded_rgb_colors st las indices), none, none,
            "RGB en LAS"⟩
    else
      some ⟨none, some (normalized_z st las indices),
            some st.HEIGHT_COLORMAP, "altura"⟩

/-- Centering step: subtract the mean when `CENTER_COORDINATES` is set. -/
def center_coords (b : Bool) (l : List ℚ) : List ℚ :=
  if b then l.map fun v => v - mean l else l

/-- Rendering of a rational for the hover strings (`f"{v:.2f}"` in the
source; the exact decimal formatting is abstracted to an exact rendering,
which the claims never inspect). -/
def ratStr (q : ℚ) : String :=
  toString q.num ++ "/" ++ toString q.den

/-- One hover line: coordinates, then classification and intensity when
those attributes exist. -/
def hover_line (x y z : ℚ) (cls : Option ℕ) (inten : Option ℕ) : String :=
  let base := "X: " ++ ratStr x ++ " m<br>Y: " ++ ratStr y ++ " m<br>Z: "
      ++ ratStr z ++ " m"
  let base2 := match cls with
    | some c => base ++ "<br>Clase: " ++ toString c
    | none => base
  match inten with
  | some v => base2 ++ "<br>Intensidad: " ++ toString v
  | none => base2

/-- The hover-text loop: one entry per selected index, built from the
post-centering x/y and post-normalization z. -/
def hover_texts (st : Settings) (las : Las) (indices : List ℕ) :
    List String :=
  let xs := center_coords st.CENTER_COORDINATES (x_original las indices)
  let ys := center_coords st.CENTER_COORDINATES (y_original las indices)
  let zs := normalized_z st las indices
  (List.range indices.length).map fun i =>
    hover_line (xs.getD i 0) (ys.getD i 0) (zs.getD i 0)
      (las.classification.map fun cls => cls.getD (indices.getD i 0) 0)
      (las.intensity.map fun ins => ins.getD (indices.getD i 0) 0)

/-- The dictionary `prepare_point_cloud_data` returns.  Its keys are
exactly `x, y, z, colors, color_array, colorscale, hover_text, num_points,
color_source` — in particular `x_center`/`y_center` are not among them. -/
structure Data where
  x : List ℚ
  y : List ℚ
  z : List ℚ
  colors : Option (List Color)
  color_array : Option (List ℚ)
  colorscale : Option String
  hover_text : List String
  num_points : ℕ
  color_source : String
  deriving DecidableEq, Repr

/-- `prepare_point_cloud_data(las, indices, ortho_data)`.  Returns `none`
when the run raises: the empty-input `ZeroDivisionError` inside
`sample_rgb_from_orthophoto`, and for every branch the closing summary
evaluates `np.min(x)`, which raises `ValueError` on an empty selection —
so every empty-`indices` run is `none`. -/
def prepare_point_cloud_data (st : Settings) (las : Las) (indices : List ℕ)
    (ortho_data : Option OrthoData) : Option Data :=
  match choose_colors st las indices ortho_data with
  | none => none
  | some cc =>
    if indices.length = 0 then none
    else some
      { x := center_coords st.CENTER_COORDINATES (x_original las indices)
        y := center_coords st.CENTER_COORDINATES (y_original las indices)
        z := normalized_z st las indices
        colors := cc.colors
        color_array := cc.color_array
        colorscale := cc.colorscale
        hover_text := hover_texts st las indices
        num_points := indices.length
        color_source := cc.color_source }

/-! ### Helper lemmas -/

lemma length_x_original (las : Las) (indices : List ℕ) :
    (x_original las indices).length = indices.length := by
  simp [x_original]

lemma length_y_original (las : Las) (indices : List ℕ) :
    (y_original las indices).length = indices.length := by
  simp [y_original]

lemma x_original_ne_nil {las : Las} {indices : List ℕ} (hne : indices ≠ []) :
    x_original las indices ≠ [] := by
  simp [x_original, hne]

lemma sample_rgb_eq_some (xs ys : List ℚ) (od : OrthoData)
    (hne : xs ≠ []) :
    sample_rgb_from_orthophoto xs ys od = some (raster_colors od xs ys) := by
  simp [sample_rgb_from_orthophoto, List.length_eq_zero, hne]

lemma length_normalized_z (st : Settings) (las : Las) (indices : List ℕ) :
    (normalized_z st las indices).length = indices.length := by
  unfold normalized_z
  cases st.NORMALIZE_HEIGHT <;> cases las.classification
  all_goals simp
  all_goals (split <;> simp)

lemma length_center_coords (b : Bool) (l : List ℚ) :
    (center_coords b l).length = l.length := by
  unfold center_coords
  split <;> simp

lemma length_hover_texts (st : Settings) (las : Las) (indices : List ℕ) :
    (hover_texts st las indices).length = indices.length := by
  simp [hover_texts]

/-- `listMin` is a lower bound of the starting accumulator. -/
lemma foldl_min_le_init (t : List ℚ) (a : ℚ) : t.foldl min a ≤ a := by
  induction t generalizing a with
  | nil => exact le_refl a
  | cons b t ih => exact le_trans (ih (min a b)) (min_le_left a b)

/-- `listMin` is a lower bound of every element folded over. -/
lemma foldl_min_le_mem (t : List ℚ) (a b : ℚ) (hb : b ∈ t) :
    t.foldl min a ≤ b := by
  induction t generalizing a with
  | nil => cases hb
  | cons c t ih =>
    rcases List.mem_cons.mp hb with h | h
    · subst h
      exact le_trans (foldl_min_le_init t (min a b)) (min_le_right a b)
    · simp only [List.foldl_cons]
      exact ih (min a c) h

/-- The fold over `min` lands on the accumulator or an element. -/
lemma foldl_min_mem (t : List ℚ) (a : ℚ) :
    t.foldl min a = a ∨ t.foldl min a ∈ t := by
  induction t generalizing a with
  | nil => exact Or.inl rfl
  | cons b t ih =>
    rcases ih (min a b) with h | h
    · rcases min_choice a b with hm | hm
      · exact Or.inl (by rw [List.foldl_cons, h, hm])
      · exact Or.inr (by rw [List.foldl_cons, h, hm]; exact List.mem_cons_self b t)
    · exact Or.inr (List.mem_cons_of_mem b h)

lemma listMin_mem {l : List ℚ} (h : l ≠ []) : listMin l ∈ l := by
  cases l with
  | nil => exact absurd rfl h
  | cons a t =>
    rcases foldl_min_mem t a with h' | h'
    · simp only [listMin]
      rw [h']
      exact List.mem_cons_self a t
    · simp only [listMin]
      exact List.mem_cons_of_mem a h'

lemma listMin_le {l : List ℚ} {b : ℚ} (hb : b ∈ l) : listMin l ≤ b := by
  cases l with
  | nil => cases hb
  | cons a t =>
    rcases List.mem_cons.mp hb with h | h
    · simp only [listMin]
      exact h ▸ foldl_min_le_init t a
    · exact foldl_min_le_mem t a b h

lemma sum_map_sub (l : List ℚ) (c : ℚ) :
    (l.map fun v => v - c).sum = l.sum - (l.length : ℚ) * c := by
  induction l with
  | nil => simp
  | cons a t ih => simp [ih]; ring

/-- Subtracting the mean produces a list of mean zero (nonempty case). -/
lemma mean_center_eq_zero (l : List ℚ) (h : l ≠ []) :
    mean (l.map fun v => v - mean l) = 0 := by
  have hn : (l.length : ℚ) ≠ 0 := by
    simpa using (List.length_pos.mpr h).ne'
  unfold mean
  rw [sum_map_sub, List.length_map]
  rw [mul_div_cancel₀ _ hn]
  simp

/-- Evaluation of `prepare_point_cloud_data` in the orthophoto branch. -/
lemma prepare_eq_ortho (st : Settings) (las : Las) (indices : List ℕ)
    (od : OrthoData) (hne : indices ≠ []) :
    prepare_point_cloud_data st las indices (some od) = some
      { x := center_coords st.CENTER_COORDINATES (x_original las indices)
        y := center_coords st.CENTER_COORDINATES (y_original las indices)
        z := normalized_z st las indices
        colors := some (raster_colors od (x_original las indices)
          (y_original las indices))
        color_array := none
        colorscale := none
        hover_text := hover_texts st las indices
        num_points := indices.length
        color_source := "ortofotografía" } := by
  unfold prepare_point_cloud_data choose_colors
  simp only [sample_rgb_eq_some (x_original las indices)
    (y_original las indices) od (x_original_ne_nil hne)]
  simp [List.length_eq_zero, hne]

/-- Evaluation of `prepare_point_cloud_data` in the embedded-RGB branch. -/
lemma prepare_eq_rgb (st : Settings) (las : Las) (indices : List ℕ)
    (hne : indices ≠ [])
    (hrgb : (las.red.isSome && las.green.isSome && las.blue.isSome) = true) :
    prepare_point_cloud_data st las indices none = some
      { x := center_coords st.CENTER_COORDINATES (x_original las indices)
        y := center_coords st.CENTER_COORDINATES (y_original las indices)
        z := normalized_z st las indices
        colors := some (embedded_rgb_colors st las indices)
        color_array := none
        colorscale := none
        hover_text := hover_texts st las indices
        num_points := indices.length
        color_source := "RGB en LAS" } := by
  unfold prepare_point_cloud_data choose_colors
  rw [hrgb]
  simp [List.length_eq_zero, hne]

/-- Evaluation of `prepare_point_cloud_data` in the height-colormap branch. -/
lemma prepare_eq_height (st : Settings) (las : Las) (indices : List ℕ)
    (hne : indices ≠ [])
    (hrgb : (las.red.isSome && las.green.isSome && las.blue.isSome) = false) :
    prepare_point_cloud_data st las indices none = some
      { x := center_coords st.CENTER_COORDINATES (x_original las indices)
        y := center_coords st.CENTER_COORDINATES (y_original las indices)
        z := normalized_z st las indices
        colors := none
        color_array := some (normalized_z st las indices)
        colorscale := some st.HEIGHT_COLORMAP
        hover_text := hover_texts st las indices
        num_points := indices.length
        color_source := "altura" } := by
  unfold prepare_point_cloud_data choose_colors
  rw [hrgb]
  simp [List.length_eq_zero, hne]

/-! ### Concrete fixtures used by witnesses -/

/-- A concrete configuration (the values of `settings.py`). -/
def stW : Settings := ⟨true, 2, true, 65535, "Earth"⟩

/-- A small concrete orthophoto: 10×10 raster, red band is `row+col+1`
(never 0), and the transform floors coordinates, raising on `x = 99`. -/
def odW : OrthoData :=
  ⟨fun r c => r + c + 1, fun _ _ => 5, fun _ _ => 6, 10, 10,
   fun x y => if x = 99 then none else some (Int.floor y, Int.floor x)⟩

/-- A small concrete point cloud with classification. -/
def lasW : Las :=
  ⟨[1, 3], [2, 2], [10, 12], some [2, 3], none, none, none, none, 2⟩

/-- A cloud with classification, embedded RGB and intensity all present. -/
def lasR : Las :=
  ⟨[1], [2], [3], some [2], some [100], some [200], some [300], none, 1⟩

/-- Two ground points at z = 10 and z = 12 (classification `[2, 2]`). -/
def lasC1 : Las :=
  ⟨[0, 0], [0, 0], [10, 12], some [2, 2], none, none, none, none, 2⟩

/-- Identical clouds up to a shift of x by 10 (no classification/RGB). -/
def lasC6a : Las := ⟨[0, 2], [0, 0], [5, 6], none, none, none, none, none, 2⟩

/-- See `lasC6a`. -/
def lasC6b : Las :=
  ⟨[10, 12], [0, 0], [5, 6], none, none, none, none, none, 2⟩

/-! ### Evaluation lemmas for `prepare_point_cloud_data` -/

/-- An empty selection always raises (summary statistics divide by or take
the minimum of empty data), so no dataset is returned. -/
lemma prepare_none_of_nil (st : Settings) (las : Las)
    (ortho_data : Option OrthoData) :
    prepare_point_cloud_data st las [] ortho_data = none := by
  cases ortho_data with
  | none =>
    unfold prepare_point_cloud_data choose_colors
    split
    · rfl
    · simp
  | some od =>
    simp [prepare_point_cloud_data, choose_colors,
      sample_rgb_from_orthophoto, x_original]

/-- For a nonempty selection a dataset is returned, and its coordinate
fields are always the centered originals and the normalized heights. -/
lemma prepare_fields (st : Settings) (las : Las) (indices : List ℕ)
    (ortho_data : Option OrthoData) (hne : indices ≠ []) :
    ∃ d, prepare_point_cloud_data st las indices ortho_data = some d ∧
      d.x = center_coords st.CENTER_COORDINATES (x_original las indices) ∧
      d.y = center_coords st.CENTER_COORDINATES (y_original las indices) ∧
      d.z = normalized_z st las indices := by
  cases ortho_data with
  | some od =>
    exact ⟨_, prepare_eq_ortho st las indices od hne, rfl, rfl, rfl⟩
  | none =>
    cases hrgb : (las.red.isSome && las.green.isSome && las.blue.isSome) with
    | false =>
      exact ⟨_, prepare_eq_height st las indices hne hrgb, rfl, rfl, rfl⟩
    | true =>
      exact ⟨_, prepare_eq_rgb st las indices hne hrgb, rfl, rfl, rfl⟩

/-! ### Claim theorems -/

/-- C8: `sample_points` returns the candidate list unchanged when the
budget is unset or not exceeded; otherwise, for every outcome of
`np.random.choice(total_indices, m, replace=False)` (modelled by the list
`pick` of chosen positions: `m` distinct in-range positions), the result
has exactly `m` entries, all drawn from the candidate list, with no
duplicates whenever the candidate list has none. -/
theorem sample_points_spec (total_indices : List ℕ) (max_points : Option ℕ)
    (pick : List ℕ)
    (hpick : ∀ m, max_points = some m → m < total_indices.length →
      pick.length = m ∧ pick.Nodup ∧ ∀ j ∈ pick, j < total_indices.length) :
    ((max_points = none ∨
        ∃ m, max_points = some m ∧ total_indices.length ≤ m) →
      sample_points total_indices max_points pick = total_indices) ∧
    ∀ m, max_points = some m → m < total_indices.length →
      (sample_points total_indices max_points pick).length = m ∧
      (∀ v ∈ sample_points total_indices max_points pick,
        v ∈ total_indices) ∧
      (total_indices.Nodup →
        (sample_points total_indices max_points pick).Nodup) := by
  constructor
  · rintro (rfl | ⟨m, rfl, hm⟩)
    · rfl
    · simp [sample_points, hm]
  · rintro m rfl hm
    obtain ⟨hlen, hnd, hbd⟩ := hpick m rfl hm
    have hif : ¬ total_indices.length ≤ m := not_le.mpr hm
    refine ⟨?_, ?_, ?_⟩
    · simp [sample_points, hif, hlen]
    · intro v hv
      simp only [sample_points, if_neg hif, List.mem_map] at hv
      obtain ⟨j, hj, rfl⟩ := hv
      rw [List.getD_eq_getElem _ _ (hbd j hj)]
      exact List.getElem_mem _
    · intro hnodup
      simp only [sample_points, if_neg hif]
      refine List.Nodup.map_on ?_ hnd
      intro j hj k hk heq
      rw [List.getD_eq_getElem _ _ (hbd j hj),
        List.getD_eq_getElem _ _ (hbd k hk)] at heq
      exact (List.Nodup.getElem_inj_iff hnodup).mp heq

/-- C8 witness: budget 2 over the candidate list `[5, 7, 9]` with the
random outcome picking positions 2 and 0. -/
theorem sample_points_spec_witness :
    (sample_points [5, 7, 9] (some 2) [2, 0]).length = 2 ∧
    (∀ v ∈ sample_points [5, 7, 9] (some 2) [2, 0], v ∈ [5, 7, 9]) ∧
    ([5, 7, 9].Nodup → (sample_points [5, 7, 9] (some 2) [2, 0]).Nodup) :=
  (sample_points_spec [5, 7, 9] (some 2) [2, 0]
    (by intro m hm; cases hm; intro h; exact ⟨rfl, by decide, by decide⟩)).2
    2 rfl (by decide)

/-- C9: `filter_points_by_classification` returns the identity index set
`0..num_points-1` when the classification attribute is absent; otherwise
it returns exactly the positions whose classification value belongs to the
requested set, in strictly increasing (original) order, a subset of
`0..N-1`, and an empty requested set yields the empty index set. -/
theorem classification_filter_spec (las : Las) (classes_to_keep : List ℕ) :
    (las.classification = none →
      filter_points_by_classification las classes_to_keep =
        List.range las.num_points) ∧
    ∀ cls, las.classification = some cls →
      (∀ i, i ∈ filter_points_by_classification las classes_to_keep ↔
        i < cls.length ∧ cls.getD i 0 ∈ classes_to_keep) ∧
      (filter_points_by_classification las classes_to_keep).Pairwise
        (· < ·) ∧
      (cls.length = las.num_points →
        ∀ i ∈ filter_points_by_classification las classes_to_keep,
          i < las.num_points) ∧
      (classes_to_keep = [] →
        filter_points_by_classification las classes_to_keep = []) := by
  constructor
  · intro h
    simp [filter_points_by_classification, h]
  · intro cls hcls
    refine ⟨?_, ?_, ?_, ?_⟩
    · intro i
      simp [filter_points_by_classification, hcls]
    · simp only [filter_points_by_classification, hcls]
      exact List.Pairwise.filter _ (List.pairwise_lt_range cls.length)
    · intro hlen i hi
      simp only [filter_points_by_classification, hcls, List.mem_filter,
        List.mem_range] at hi
      exact hlen ▸ hi.1
    · rintro rfl
      simp [filter_points_by_classification, hcls]

/-- C9 witness: classification `[2, 3]`, keeping class 3, selects exactly
index 1; the empty requested set selects nothing. -/
theorem classification_filter_spec_witness :
    (1 ∈ filter_points_by_classification lasW [3] ↔
      1 < ([2, 3] : List ℕ).length ∧ ([2, 3] : List ℕ).getD 1 0 ∈ [3]) ∧
    filter_points_by_classification lasW [] = [] :=
  ⟨((classification_filter_spec lasW [3]).2 [2, 3] rfl).1 1,
   ((classification_filter_spec lasW []).2 [2, 3] rfl).2.2.2 rfl⟩

/-- C10: for equal-length nonempty coordinate arrays the raster sampler
returns exactly one color per input point; for empty input it does not
return a list but raises (the closing summary divides by
`len(x_coords)`), modelled as `none`. -/
theorem sample_rgb_length_spec (xs ys : List ℚ) (od : OrthoData)
    (hlen : xs.length = ys.length) :
    (xs ≠ [] → ∃ cs, sample_rgb_from_orthophoto xs ys od = some cs ∧
      cs.length = xs.length) ∧
    (xs = [] → sample_rgb_from_orthophoto xs ys od = none) := by
  constructor
  · intro hne
    refine ⟨raster_colors od xs ys, sample_rgb_eq_some xs ys od hne, ?_⟩
    simp [raster_colors, List.length_zip, hlen]
  · rintro rfl
    rfl

/-- C10 witness: three points, one in-raster, one out-of-raster, one
raising in the transform — still three output colors; empty input `none`. -/
theorem sample_rgb_length_spec_witness :
    (∃ cs, sample_rgb_from_orthophoto [1, 50, 99] [2, 2, 2] odW = some cs ∧
      cs.length = ([1, 50, 99] : List ℚ).length) ∧
    sample_rgb_from_orthophoto ([] : List ℚ) [] odW = none :=
  ⟨(sample_rgb_length_spec [1, 50, 99] [2, 2, 2] odW rfl).1 (by decide),
   (sample_rgb_length_spec [] [] odW rfl).2 rfl⟩

/-- The i-th output of the sampling loop is the resolution of the i-th
input point. -/
lemma raster_colors_getD (od : OrthoData) (xs ys : List ℚ) (i : ℕ)
    (hi : i < xs.length) (hlen : xs.length = ys.length) :
    (raster_colors od xs ys).getD i sentinelGray =
      resolve_point od (xs.getD i 0) (ys.getD i 0) := by
  have hz : i < (xs.zip ys).length := by
    rw [List.length_zip, ← hlen, min_self]
    exact hi
  have hm : i < (raster_colors od xs ys).length := by
    simpa [raster_colors] using hz
  have hy : i < ys.length := hlen ▸ hi
  rw [List.getD_eq_getElem _ _ hm, List.getD_eq_getElem _ _ hi,
    List.getD_eq_getElem _ _ hy]
  simp only [raster_colors, List.getElem_map, List.getElem_zip]

/-- C2: for every point handed to `sample_rgb_from_orthophoto`, if the
transform inversion yields a pixel cell inside the raster whose value is
not exactly `(0,0,0)`, the point's color is the `(r,g,b)` read there;
out-of-bounds cells, exact-black (no-data) cells, and per-point transform
errors each yield exactly the sentinel gray; and no per-point failure
aborts the batch — the output has one entry per input point. -/
theorem raster_resolver_spec (od : OrthoData) (xs ys : List ℚ) (i : ℕ)
    (cs : List Color) (hcs : sample_rgb_from_orthophoto xs ys od = some cs)
    (hi : i < xs.length) (hlen : xs.length = ys.length) :
    cs.length = xs.length ∧
    (∀ row col, od.rowcol (xs.getD i 0) (ys.getD i 0) = some (row, col) →
      (0 ≤ row ∧ row < (od.height : ℤ) ∧ 0 ≤ col ∧ col < (od.width : ℤ)) →
      ¬(od.red row col = 0 ∧ od.green row col = 0 ∧ od.blue row col = 0) →
      cs.getD i sentinelGray =
        (od.red row col, od.green row col, od.blue row col)) ∧
    (∀ row col, od.rowcol (xs.getD i 0) (ys.getD i 0) = some (row, col) →
      ((od.red row col = 0 ∧ od.green row col = 0 ∧ od.blue row col = 0) ∨
        ¬(0 ≤ row ∧ row < (od.height : ℤ) ∧ 0 ≤ col ∧
          col < (od.width : ℤ))) →
      cs.getD i sentinelGray = sentinelGray) ∧
    (od.rowcol (xs.getD i 0) (ys.getD i 0) = none →
      cs.getD i sentinelGray = sentinelGray) := by
  have hx : xs ≠ [] := List.ne_nil_of_length_pos (by omega)
  rw [sample_rgb_eq_some xs ys od hx] at hcs
  simp only [Option.some.injEq] at hcs
  subst hcs
  have hkey := raster_colors_getD od xs ys i hi hlen
  refine ⟨?_, ?_, ?_, ?_⟩
  · simp [raster_colors, List.length_zip, hlen]
  · intro row col hrc hin hnb
    rw [hkey]
    simp only [resolve_point]
    rw [hrc]
    simp [hin, hnb]
  · intro row col hrc hcase
    rw [hkey]
    simp only [resolve_point]
    rw [hrc]
    rcases hcase with hb | hnin
    · simp [hb.1, hb.2.1, hb.2.2]
    · simp [hnin]
  · intro hrc
    rw [hkey]
    simp only [resolve_point]
    rw [hrc]

/-- C2 witness: with `odW`, the point `(1,2)` resolves to the pixel value
`(4,5,6)`, the point `(50,2)` is out of the 10×10 raster and gets sentinel
gray, and the point `(99,2)` raises in the transform and gets sentinel
gray; the batch still has 3 colors. -/
theorem raster_resolver_spec_witness :
    (raster_colors odW [1, 50, 99] [2, 2, 2]).length =
      ([1, 50, 99] : List ℚ).length ∧
    (raster_colors odW [1, 50, 99] [2, 2, 2]).getD 0 sentinelGray =
      (4, 5, 6) ∧
    (raster_colors odW [1, 50, 99] [2, 2, 2]).getD 1 sentinelGray =
      sentinelGray ∧
    (raster_colors odW [1, 50, 99] [2, 2, 2]).getD 2 sentinelGray =
      sentinelGray := by
  have h0 := raster_resolver_spec odW [1, 50, 99] [2, 2, 2] 0 _ rfl
    (by decide) rfl
  have h1 := raster_resolver_spec odW [1, 50, 99] [2, 2, 2] 1 _ rfl
    (by decide) rfl
  have h2 := raster_resolver_spec odW [1, 50, 99] [2, 2, 2] 2 _ rfl
    (by decide) rfl
  refine ⟨h0.1, ?_, ?_, ?_⟩
  · have := h0.2.1 2 1 (by decide) (by decide) (by decide)
    simpa using this
  · have := h1.2.2.1 2 50 (by decide) (Or.inr (by decide))
    simpa using this
  · exact h2.2.2.2 (by decide)

/-- C5: every dataset `prepare_point_cloud_data` returns has
`len x = len y = len z = len hover_text = num_points`, and exactly one
color representation is populated: the per-point colors or the scalar
color array, never both and never neither. -/
theorem prepared_dataset_invariant (st : Settings) (las : Las)
    (indices : List ℕ) (ortho_data : Option OrthoData) (d : Data)
    (hd : prepare_point_cloud_data st las indices ortho_data = some d) :
    d.x.length = d.num_points ∧ d.y.length = d.num_points ∧
    d.z.length = d.num_points ∧ d.hover_text.length = d.num_points ∧
    ((∃ cs, d.colors = some cs) ↔ d.color_array = none) := by
  by_cases hne : indices = []
  · subst hne
    rw [prepare_none_of_nil] at hd
    cases hd
  · have hlen : ∀ e : Data,
        e.x = center_coords st.CENTER_COORDINATES (x_original las indices) →
        e.y = center_coords st.CENTER_COORDINATES (y_original las indices) →
        e.z = normalized_z st las indices →
        e.hover_text = hover_texts st las indices →
        e.num_points = indices.length →
        e.x.length = e.num_points ∧ e.y.length = e.num_points ∧
          e.z.length = e.num_points ∧ e.hover_text.length = e.num_points := by
      intro e hx hy hz hh hn
      rw [hx, hy, hz, hh, hn]
      exact ⟨by rw [length_center_coords, length_x_original],
        by rw [length_center_coords, length_y_original],
        length_normalized_z st las indices,
        length_hover_texts st las indices⟩
    cases ortho_data with
    | some od =>
      rw [prepare_eq_ortho st las indices od hne] at hd
      simp only [Option.some.injEq] at hd
      subst hd
      exact ⟨(hlen _ rfl rfl rfl rfl rfl).1, (hlen _ rfl rfl rfl rfl rfl).2.1,
        (hlen _ rfl rfl rfl rfl rfl).2.2.1,
        (hlen _ rfl rfl rfl rfl rfl).2.2.2, by simp⟩
    | none =>
      cases hrgb : (las.red.isSome && las.green.isSome && las.blue.isSome) with
      | false =>
        rw [prepare_eq_height st las indices hne hrgb] at hd
        simp only [Option.some.injEq] at hd
        subst hd
        exact ⟨(hlen _ rfl rfl rfl rfl rfl).1,
          (hlen _ rfl rfl rfl rfl rfl).2.1,
          (hlen _ rfl rfl rfl rfl rfl).2.2.1,
          (hlen _ rfl rfl rfl rfl rfl).2.2.2, by simp⟩
      | true =>
        rw [prepare_eq_rgb st las indices hne hrgb] at hd
        simp only [Option.some.injEq] at hd
        subst hd
        exact ⟨(hlen _ rfl rfl rfl rfl rfl).1,
          (hlen _ rfl rfl rfl rfl rfl).2.1,
          (hlen _ rfl rfl rfl rfl rfl).2.2.1,
          (hlen _ rfl rfl rfl rfl rfl).2.2.2, by simp⟩

/-- C5 witness: the invariant holds on the concrete height-colormap run
over one point. -/
theorem prepared_dataset_invariant_witness :
    (Data.mk [0] [0] [8] none (some [8]) (some "Earth")
        ["X: 0/1 m<br>Y: 0/1 m<br>Z: 8/1 m"] 1 "altura").x.length =
      (Data.mk [0] [0] [8] none (some [8]) (some "Earth")
        ["X: 0/1 m<br>Y: 0/1 m<br>Z: 8/1 m"] 1 "altura").num_points :=
  (prepared_dataset_invariant stW
    ⟨[4], [6], [8], none, none, none, none, none, 1⟩ [0] none _ rfl).1

/-- C4: the color source is chosen once per run with fixed priority:
raster loaded → raster-resolver colors and source `"ortofotografía"` (even
when embedded RGB and height are also available); else embedded RGB
channels, scaled from 0–65535 to 0–255, with source `"RGB en LAS"`; else
the post-normalization z as scalar color array with the configured
colormap, source `"altura"`. -/
theorem color_source_priority (st : Settings) (las : Las)
    (indices : List ℕ) (ortho_data : Option OrthoData)
    (hne : indices ≠ []) :
    ∃ d, prepare_point_cloud_data st las indices ortho_data = some d ∧
      (∀ od, ortho_data = some od →
        d.color_source = "ortofotografía" ∧
        d.colors = some (raster_colors od (x_original las indices)
          (y_original las indices))) ∧
      (ortho_data = none →
        (las.red.isSome && las.green.isSome && las.blue.isSome) = true →
        d.color_source = "RGB en LAS" ∧
        d.colors = some (embedded_rgb_colors st las indices)) ∧
      (ortho_data = none →
        (las.red.isSome && las.green.isSome && las.blue.isSome) = false →
        d.color_source = "altura" ∧
        d.color_array = some (normalized_z st las indices) ∧
        d.colorscale = some st.HEIGHT_COLORMAP) := by
  cases ortho_data with
  | some od =>
    refine ⟨_, prepare_eq_ortho st las indices od hne, ?_, ?_, ?_⟩
    · intro od' h
      injection h with h
      subst h
      exact ⟨rfl, rfl⟩
    · rintro ⟨⟩
    · rintro ⟨⟩
  | none =>
    cases hrgb : (las.red.isSome && las.green.isSome && las.blue.isSome) with
    | false =>
      refine ⟨_, prepare_eq_height st las indices hne hrgb, ?_, ?_, ?_⟩
      · rintro od ⟨⟩
      · intro _ htrue
        exact Bool.noConfusion htrue
      · intro _ _
        exact ⟨rfl, rfl, rfl⟩
    | true =>
      refine ⟨_, prepare_eq_rgb st las indices hne hrgb, ?_, ?_, ?_⟩
      · rintro od ⟨⟩
      · intro _ _
        exact ⟨rfl, rfl⟩
      · intro _ hfalse
        exact Bool.noConfusion hfalse

/-- C4 witness: on a cloud that has classification, embedded RGB and
height simultaneously, a loaded raster wins: the source is
`"ortofotografía"` and the colors are the raster-resolver output. -/
theorem color_source_priority_witness :
    ∃ d, prepare_point_cloud_data stW lasR [0] (some odW) = some d ∧
      d.color_source = "ortofotografía" ∧
      d.colors = some (raster_colors odW (x_original lasR [0])
        (y_original lasR [0])) := by
  obtain ⟨d, hd, h1, _, _⟩ :=
    color_source_priority stW lasR [0] (some odW) (by decide)
  exact ⟨d, hd, (h1 odW rfl).1, (h1 odW rfl).2⟩

/-- C3: with a raster present and centering enabled, the colors are
resolved from the original, un-centered world coordinates
(`x_original`/`y_original`), while the coordinate arrays placed in the
dataset are the centered ones — centering happens strictly after color
resolution, only on the output coordinates. -/
theorem colors_from_uncentered_coords (st : Settings) (las : Las)
    (indices : List ℕ) (od : OrthoData)
    (hc : st.CENTER_COORDINATES = true) (hne : indices ≠ []) :
    ∃ d, prepare_point_cloud_data st las indices (some od) = some d ∧
      sample_rgb_from_orthophoto (x_original las indices)
        (y_original las indices) od =
        some (raster_colors od (x_original las indices)
          (y_original las indices)) ∧
      d.colors = some (raster_colors od (x_original las indices)
        (y_original las indices)) ∧
      d.x = (x_original las indices).map
        (fun v => v - mean (x_original las indices)) ∧
      d.y = (y_original las indices).map
        (fun v => v - mean (y_original las indices)) := by
  refine ⟨_, prepare_eq_ortho st las indices od hne,
    sample_rgb_eq_some _ _ od (x_original_ne_nil hne), rfl, ?_, ?_⟩
  · simp [center_coords, hc]
  · simp [center_coords, hc]

/-- C3 witness: concrete run with raster and centering enabled. -/
theorem colors_from_uncentered_coords_witness :
    ∃ d, prepare_point_cloud_data stW lasR [0] (some odW) = some d ∧
      sample_rgb_from_orthophoto (x_original lasR [0])
        (y_original lasR [0]) odW =
        some (raster_colors odW (x_original lasR [0]) (y_original lasR [0])) ∧
      d.colors = some (raster_colors odW (x_original lasR [0])
        (y_original lasR [0])) ∧
      d.x = (x_original lasR [0]).map
        (fun v => v - mean (x_original lasR [0])) ∧
      d.y = (y_original lasR [0]).map
        (fun v => v - mean (y_original lasR [0])) :=
  colors_from_uncentered_coords stW lasR [0] odW rfl (by decide)

/-- C7: with centering enabled and a nonempty selection, the output
coordinates are the originals minus their means, and consequently the
means of the output coordinate arrays are exactly 0 (exact arithmetic
subsumes "within floating tolerance"). -/
theorem centering_mean_zero (st : Settings) (las : Las) (indices : List ℕ)
    (ortho_data : Option OrthoData) (hc : st.CENTER_COORDINATES = true)
    (hne : indices ≠ []) :
    ∃ d, prepare_point_cloud_data st las indices ortho_data = some d ∧
      d.x = (x_original las indices).map
        (fun v => v - mean (x_original las indices)) ∧
      d.y = (y_original las indices).map
        (fun v => v - mean (y_original las indices)) ∧
      mean d.x = 0 ∧ mean d.y = 0 := by
  obtain ⟨d, hd, hx, hy, _⟩ := prepare_fields st las indices ortho_data hne
  rw [center_coords, hc] at hx hy
  simp only [if_pos] at hx hy
  refine ⟨d, hd, hx, hy, ?_, ?_⟩
  · rw [hx]
    exact mean_center_eq_zero _ (x_original_ne_nil hne)
  · rw [hy]
    exact mean_center_eq_zero _ (by simp [y_original, hne])

/-- C7 witness: concrete centering run; the output coordinate means are
exactly zero. -/
theorem centering_mean_zero_witness :
    ∃ d, prepare_point_cloud_data stW lasC6a [0, 1] none = some d ∧
      d.x = (x_original lasC6a [0, 1]).map
        (fun v => v - mean (x_original lasC6a [0, 1])) ∧
      d.y = (y_original lasC6a [0, 1]).map
        (fun v => v - mean (y_original lasC6a [0, 1])) ∧
      mean d.x = 0 ∧ mean d.y = 0 :=
  centering_mean_zero stW lasC6a [0, 1] none rfl (by decide)

/-- C1 as stated is false on the code: the ground elevation is the
minimum z over the ground points of the WHOLE cloud, not of the selected
index set.  Concretely: classification `[2, 2]`, `z = [10, 12]`,
`GROUND_CLASS = 2`, selection `[1]` — the selected point is a ground
point, yet its normalized height is `12 - 10 = 2`, so the minimum of z'
over the selected ground points is 2, not 0. -/
theorem height_norm_selected_counterexample :
    (prepare_point_cloud_data stW lasC1 [1] none).map Data.z = some [2] ∧
    listMin [2] ≠ 0 := by
  constructor
  · rw [prepare_eq_height stW lasC1 [1] (by decide) rfl]
    simp only [Option.map_some', Option.some.injEq]
    have hg : ground_zs lasC1 [2, 2] 2 = [10, 12] := rfl
    have hmin : listMin [(10 : ℚ), 12] = 10 := by
      show min (10 : ℚ) 12 = 10
      norm_num [min_def]
    show (if ground_zs lasC1 [2, 2] 2 = [] then [(12 : ℚ)]
        else [(12 : ℚ)].map fun zi =>
          zi - listMin (ground_zs lasC1 [2, 2] 2)) = [2]
    simp only [hg, hmin]
    norm_num
    simp
  · norm_num [listMin]

/-- C1 amended: with normalize-height enabled and classification
available, the ground elevation is the minimum z over the ground points
of the whole cloud (`ground_zs`, built from the full `z`/`classification`
arrays); `z' = z - groundElevation` is applied to all selected points; if
the cloud has no ground points, z is left unmodified with no error. -/
theorem height_norm_global_ground_min (st : Settings) (las : Las)
    (indices : List ℕ) (ortho_data : Option OrthoData) (cls : List ℕ)
    (hn : st.NORMALIZE_HEIGHT = true) (hcls : las.classification = some cls)
    (hne : indices ≠ []) :
    ∃ d, prepare_point_cloud_data st las indices ortho_data = some d ∧
      (ground_zs las cls st.GROUND_CLASS = [] →
        d.z = indices.map fun i => las.z.getD i 0) ∧
      (ground_zs las cls st.GROUND_CLASS ≠ [] →
        d.z = indices.map
          (fun i => las.z.getD i 0 -
            listMin (ground_zs las cls st.GROUND_CLASS)) ∧
        listMin (ground_zs las cls st.GROUND_CLASS) ∈
          ground_zs las cls st.GROUND_CLASS ∧
        ∀ w ∈ ground_zs las cls st.GROUND_CLASS,
          listMin (ground_zs las cls st.GROUND_CLASS) ≤ w) := by
  obtain ⟨d, hd, _, _, hz⟩ := prepare_fields st las indices ortho_data hne
  refine ⟨d, hd, ?_, ?_⟩
  · intro hg
    rw [hz]
    simp only [normalized_z, hn, hcls]
    simp [hg]
  · intro hg
    refine ⟨?_, listMin_mem hg, fun w hw => listMin_le hw⟩
    rw [hz]
    simp only [normalized_z, hn, hcls]
    simp [hg, List.map_map, Function.comp]

/-- C1 amended witness: with the whole-cloud ground minimum 10, the
selection `[1]` gets `z' = [12 - 10] = [2]`. -/
theorem height_norm_global_ground_min_witness :
    ∃ d, prepare_point_cloud_data stW lasC1 [1] none = some d ∧
      (ground_zs lasC1 [2, 2] 2 = [] →
        d.z = [1].map fun i => lasC1.z.getD i 0) ∧
      (ground_zs lasC1 [2, 2] 2 ≠ [] →
        d.z = [1].map
          (fun i => lasC1.z.getD i 0 - listMin (ground_zs lasC1 [2, 2] 2)) ∧
        listMin (ground_zs lasC1 [2, 2] 2) ∈ ground_zs lasC1 [2, 2] 2 ∧
        ∀ w ∈ ground_zs lasC1 [2, 2] 2,
          listMin (ground_zs lasC1 [2, 2] 2) ≤ w) :=
  height_norm_global_ground_min stW lasC1 [1] none [2, 2] rfl rfl
    (by decide)

/-- C6 as stated is false on the code: the returned dictionary carries
only `x, y, z, colors, color_array, colorscale, hover_text, num_points,
color_source` — the centering offsets are printed but not returned.  Two
clouds differing by a shift of x by 10 (different `x_center`) produce
identical outputs, so the output cannot determine the offsets. -/
theorem center_offsets_not_returned_counterexample :
    prepare_point_cloud_data stW lasC6a [0, 1] none =
      prepare_point_cloud_data stW lasC6b [0, 1] none ∧
    mean (x_original lasC6a [0, 1]) ≠ mean (x_original lasC6b [0, 1]) := by
  have hx : center_coords stW.CENTER_COORDINATES (x_original lasC6a [0, 1]) =
      center_coords stW.CENTER_COORDINATES (x_original lasC6b [0, 1]) := by
    norm_num [center_coords, mean, x_original, lasC6a, lasC6b, stW]
  have hy : center_coords stW.CENTER_COORDINATES (y_original lasC6a [0, 1]) =
      center_coords stW.CENTER_COORDINATES (y_original lasC6b [0, 1]) := by
    norm_num [center_coords, mean, y_original, lasC6a, lasC6b, stW]
  have hz : normalized_z stW lasC6a [0, 1] = normalized_z stW lasC6b [0, 1] :=
    rfl
  constructor
  · rw [prepare_eq_height stW lasC6a [0, 1] (by decide) rfl,
      prepare_eq_height stW lasC6b [0, 1] (by decide) rfl]
    have hh : hover_texts stW lasC6a [0, 1] = hover_texts stW lasC6b [0, 1] := by
      simp only [hover_texts, hx, hy, hz]
      rfl
    rw [hx, hy, hz, hh]
  · norm_num [mean, x_original, lasC6a, lasC6b]

/-- C6 amended: with centering enabled, the offsets
`x_center = mean(x)`, `y_center = mean(y)` over the selected original
coordinates are computed and applied by subtraction to the coordinates of
the returned dataset, but they are not themselves part of the returned
output. -/
theorem center_offsets_applied (st : Settings) (las : Las)
    (indices : List ℕ) (ortho_data : Option OrthoData)
    (hc : st.CENTER_COORDINATES = true) (hne : indices ≠ []) :
    ∃ d, prepare_point_cloud_data st las indices ortho_data = some d ∧
      d.x = (x_original las indices).map
        (fun v => v - mean (x_original las indices)) ∧
      d.y = (y_original las indices).map
        (fun v => v - mean (y_original las indices)) := by
  obtain ⟨d, hd, hx, hy, _⟩ := prepare_fields st las indices ortho_data hne
  rw [center_coords, hc] at hx hy
  simp only [if_pos] at hx hy
  exact ⟨d, hd, hx, hy⟩

/-- C6 amended witness: concrete centering run. -/
theorem center_offsets_applied_witness :
    ∃ d, prepare_point_cloud_data stW lasC6b [0, 1] none = some d ∧
      d.x = (x_original lasC6b [0, 1]).map
        (fun v => v - mean (x_original lasC6b [0, 1])) ∧
      d.y = (y_original lasC6b [0, 1]).map
        (fun v => v - mean (y_original lasC6b [0, 1])) :=
  center_offsets_applied stW lasC6b [0, 1] none rfl (by decide)

end PointCloud
